import Mathlib

/-!
Verification of the aegis-zero edge proxy against its natural-language
specification.  The development is a shallow embedding of the Go sources:
Go strings are modelled as lists of characters, float64 values as rationals,
time instants as integer microsecond counts, and the Redis / JWT / upstream
collaborators as explicit oracle functions supplied to the handlers.
-/

namespace AegisZero

/-- Go strings, modelled as lists of characters. -/
abbrev Str := List Char

/-- Converts a Lean string literal into the Go string model. -/
def str (s : String) : Str := s.data

/-- Models strings.Split with a single-character separator: the result is the
list of maximal runs between occurrences of the separator (never empty). -/
def splitOnChar (c : Char) : Str → List Str
  | [] => [[]]
  | x :: xs =>
    match splitOnChar c xs with
    | [] => [[x]]
    | y :: ys => if x = c then [] :: y :: ys else (x :: y) :: ys

/-- Models unicode.IsSpace on the characters Go treats as white space in
Latin-1: space, tab, newline, vertical tab, form feed, carriage return,
next line, and no-break space. -/
def goIsSpace (c : Char) : Bool :=
  c = ' ' || c = '\t' || c = '\n' || c = '\x0b' || c = '\x0c' || c = '\r' ||
    c = '\u0085' || c = '\u00A0'

/-- Models strings.TrimSpace: removes leading and trailing white space. -/
def goTrimSpace (s : Str) : Str :=
  ((s.dropWhile goIsSpace).reverse.dropWhile goIsSpace).reverse

/-- Models strings.LastIndex(s, ":"): the index of the last colon, if any. -/
def lastIdxColon : Str → Option Nat
  | [] => none
  | x :: xs =>
    match lastIdxColon xs with
    | some i => some (i + 1)
    | none => if x = ':' then some 0 else none

/-- Models strings.Index for a one-character needle: the first index of the
character, if any. -/
def firstIdx (c : Char) : Str → Option Nat
  | [] => none
  | x :: xs => if x = c then some 0 else (firstIdx c xs).map (· + 1)

/-- Models strings.TrimPrefix for a one-character pattern. -/
def trimPrefixChar (c : Char) : Str → Str
  | [] => []
  | x :: xs => if x = c then xs else x :: xs

/-- Models strings.TrimSuffix for a one-character pattern. -/
def trimSuffixChar (c : Char) (s : Str) : Str :=
  match s.getLast? with
  | some x => if x = c then s.dropLast else s
  | none => s

/-- Models strings.SplitN(s, sep, 2) for a one-character separator: at most
two pieces, split at the first occurrence. -/
def goSplitN2 (c : Char) (s : Str) : List Str :=
  match firstIdx c s with
  | none => [s]
  | some i => [s.take i, s.drop (i + 1)]

/-- Models strings.ToLower, character by character. -/
def goToLower (s : Str) : Str := s.map Char.toLower

/-- Models net.SplitHostPort from the Go standard library.  none models the
error return (missing port, too many colons, stray brackets); some gives the
host and port pieces. -/
def splitHostPort (s : Str) : Option (Str × Str) :=
  match lastIdxColon s with
  | none => none
  | some i =>
    match s with
    | [] => none
    | c0 :: _ =>
      if c0 = '[' then
        match firstIdx ']' s with
        | none => none
        | some e =>
          if e + 1 = s.length then none
          else if e + 1 = i then
            if (firstIdx '[' (s.drop 1)).isSome then none
            else if (firstIdx ']' (s.drop (e + 1))).isSome then none
            else some ((s.drop 1).take (e - 1), s.drop (i + 1))
          else none
      else
        if (firstIdx ':' (s.take i)).isSome then none
        else if (firstIdx '[' s).isSome then none
        else if (firstIdx ']' s).isSome then none
        else some (s.take i, s.drop (i + 1))

/-- A client certificate as seen by the proxy: its subject common name and
its DER encoding (a byte list). -/
structure Cert where
  subjectCN : Str
  der : List Nat
  deriving DecidableEq

/-- An incoming HTTP request, with the header fields the proxy reads and the
header fields the forwarder writes.  An empty list models an absent header,
matching Go Header.Get returning the empty string. -/
structure Request where
  xff : Str
  xri : Str
  authHeader : Str
  remoteAddr : Str
  path : Str
  contentLength : Int
  tlsPeerCerts : List Cert
  host : Str
  xForwardedBy : Str
  xClientCertCN : Str
  xClientCertFingerprint : Str
  deriving DecidableEq

/-- A baseline request used to build concrete inputs. -/
def req0 : Request :=
  { xff := [], xri := [], authHeader := [], remoteAddr := str "10.0.0.1:443",
    path := str "/", contentLength := 0, tlsPeerCerts := [], host := [],
    xForwardedBy := [], xClientCertCN := [], xClientCertFingerprint := [] }

/-- Models extractClientIP from proxy/middleware/blocklist.go: first value of
X-Forwarded-For (comma-split, trimmed), else X-Real-IP, else RemoteAddr cut
at its last colon with one layer of square brackets stripped. -/
def extractClientIP (r : Request) : Str :=
  if r.xff ≠ [] then
    goTrimSpace ((splitOnChar ',' r.xff).headD [])
  else if r.xri ≠ [] then
    r.xri
  else
    let ip := match lastIdxColon r.remoteAddr with
      | some i => r.remoteAddr.take i
      | none => r.remoteAddr
    trimSuffixChar ']' (trimPrefixChar '[' ip)

/-- Models extractClientIPLogger from the logger middleware: first value of
X-Forwarded-For (comma-split, trimmed), else X-Real-IP, else the host piece
of net.SplitHostPort on RemoteAddr, with RemoteAddr itself on a parse
error. -/
def extractClientIPLogger (r : Request) : Str :=
  if r.xff ≠ [] then
    goTrimSpace ((splitOnChar ',' r.xff).headD [])
  else if r.xri ≠ [] then
    r.xri
  else
    match splitHostPort r.remoteAddr with
    | none => r.remoteAddr
    | some hp => hp.1

/-- Traffic features extracted for the anomaly model, mirroring the
TrafficFeatures struct of proxy/middleware/tracker.go.  float64 fields are
rationals, Go int fields are integers. -/
structure TrafficFeatures where
  bwdPacketLengthStd : ℚ
  bwdPacketLengthMean : ℚ
  avgPacketSize : ℚ
  flowBytesSec : ℚ
  flowPacketsSec : ℚ
  fwdIATMean : ℚ
  fwdIATMax : ℚ
  fwdIATMin : ℚ
  fwdIATTotal : ℚ
  totalFwdPackets : Int
  subflowFwdPackets : Int
  deriving DecidableEq

/-- The all-zero TrafficFeatures value (the Go zero value of the struct). -/
def zeroFeatures : TrafficFeatures :=
  { bwdPacketLengthStd := 0, bwdPacketLengthMean := 0, avgPacketSize := 0,
    flowBytesSec := 0, flowPacketsSec := 0, fwdIATMean := 0, fwdIATMax := 0,
    fwdIATMin := 0, fwdIATTotal := 0, totalFwdPackets := 0,
    subflowFwdPackets := 0 }

/-- Per-client flow state, mirroring FlowStats of tracker.go.  Time instants
are integer microsecond counts; lastRequestTime none models the zero
time.Time (IsZero true). -/
structure FlowStats where
  lastRequestTime : Option Int
  flowStartTime : Int
  fwdPacketLengths : List ℚ
  bwdPacketLengths : List ℚ
  fwdIATs : List ℚ
  totalFwdPkts : Int
  totalBwdPkts : Int
  deriving DecidableEq

/-- Models the fresh FlowStats allocated by getOrCreateFlow: zero last
request time, empty windows, zero counters. -/
def newFlow (now : Int) : FlowStats :=
  { lastRequestTime := none, flowStartTime := now, fwdPacketLengths := [],
    bwdPacketLengths := [], fwdIATs := [], totalFwdPkts := 0,
    totalBwdPkts := 0 }

/-- Models calculateSum of tracker.go: the running sum of the slice. -/
def calculateSum (data : List ℚ) : ℚ := data.foldl (· + ·) 0

/-- Models calculateMean of tracker.go: 0 on an empty slice, else the sum
divided by the length. -/
def calculateMean (data : List ℚ) : ℚ :=
  if data.length = 0 then 0 else calculateSum data / (data.length : ℚ)

/-- Models calculateMax of tracker.go: 0 on an empty slice, else the running
maximum started from the first element. -/
def calculateMax : List ℚ → ℚ
  | [] => 0
  | x :: xs => (x :: xs).foldl (fun m v => if v > m then v else m) x

/-- Models calculateMin of tracker.go: 0 on an empty slice, else the running
minimum started from the first element. -/
def calculateMin : List ℚ → ℚ
  | [] => 0
  | x :: xs => (x :: xs).foldl (fun m v => if v < m then v else m) x

/-- Models calculateStdDev of tracker.go: 0 on an empty slice, else
math.Sqrt of the population variance about the given mean.  math.Sqrt itself
is kept as the parameter msqrt: no claim below depends on its values, so
every theorem quantifies over it. -/
def calculateStdDev (msqrt : ℚ → ℚ) (data : List ℚ) (mean : ℚ) : ℚ :=
  if data.length = 0 then 0
  else msqrt ((data.foldl (fun acc v => acc + (v - mean) * (v - mean)) 0) / (data.length : ℚ))

/-- The inter-arrival time computed by TrackRequest: 0 when no previous
request time is recorded, else the microsecond difference to it. -/
def iatOf (s : FlowStats) (now : Int) : ℚ :=
  match s.lastRequestTime with
  | none => 0
  | some t => ((now - t : Int) : ℚ)

/-- Models FlowTracker.TrackRequest on the state of one key (the per-key
mutex section): compute the IAT, bump the forward counter, append the
request size, append the IAT iff it is positive, set the last request time,
trim both forward windows to 100 by dropping the oldest entry, and return
the forward-side feature snapshot. -/
def trackRequest (now : Int) (reqSize : Int) (s : FlowStats) :
    FlowStats × TrafficFeatures :=
  let fwdIAT := iatOf s now
  let fwd := s.fwdPacketLengths ++ [(reqSize : ℚ)]
  let iats := if fwdIAT > 0 then s.fwdIATs ++ [fwdIAT] else s.fwdIATs
  let fwd := if fwd.length > 100 then fwd.tail else fwd
  let iats := if iats.length > 100 then iats.tail else iats
  let s := { s with totalFwdPkts := s.totalFwdPkts + 1, fwdPacketLengths := fwd,
                    fwdIATs := iats, lastRequestTime := some now }
  (s, { zeroFeatures with
          totalFwdPackets := s.totalFwdPkts,
          subflowFwdPackets := s.totalFwdPkts,
          fwdIATMean := calculateMean s.fwdIATs,
          fwdIATMax := calculateMax s.fwdIATs,
          fwdIATMin := calculateMin s.fwdIATs,
          fwdIATTotal := calculateSum s.fwdIATs })

/-- Models FlowTracker.UpdateResponseStats on the state of one key: bump the
backward counter, append the response size, trim the backward window to 100
by dropping the oldest entry, write the backward mean and population
standard deviation into the features, and write the average packet size
(window sums over all-time counters) when the packet total is positive. -/
def updateResponseStats (msqrt : ℚ → ℚ) (respSize : Int) (s : FlowStats)
    (f : TrafficFeatures) : FlowStats × TrafficFeatures :=
  let bwd := s.bwdPacketLengths ++ [(respSize : ℚ)]
  let bwd := if bwd.length > 100 then bwd.tail else bwd
  let s := { s with totalBwdPkts := s.totalBwdPkts + 1, bwdPacketLengths := bwd }
  let bwdMean := calculateMean s.bwdPacketLengths
  let f := { f with bwdPacketLengthMean := bwdMean,
                    bwdPacketLengthStd := calculateStdDev msqrt s.bwdPacketLengths bwdMean }
  let totalPackets : ℚ := ((s.totalFwdPkts + s.totalBwdPkts : Int) : ℚ)
  let totalSize := calculateSum s.fwdPacketLengths + calculateSum s.bwdPacketLengths
  let f := if totalPackets > 0 then { f with avgPacketSize := totalSize / totalPackets } else f
  (s, f)

/-- One observation on a single key: a forward observation (TrackRequest at
a given instant with a request size) or a backward observation
(UpdateResponseStats with a response size). -/
inductive FlowOp
  | track (now : Int) (reqSize : Int)
  | respond (respSize : Int)
  deriving DecidableEq

/-- The state transition of one observation (feature output discarded). -/
def applyOp (msqrt : ℚ → ℚ) (s : FlowStats) : FlowOp → FlowStats
  | .track now reqSize => (trackRequest now reqSize s).1
  | .respond respSize => (updateResponseStats msqrt respSize s zeroFeatures).1

/-- The state after a sequence of observations on one key. -/
def applyOps (msqrt : ℚ → ℚ) (s : FlowStats) (ops : List FlowOp) : FlowStats :=
  ops.foldl (applyOp msqrt) s

/-- An HTTP response as the proxy produces it: status code and body bytes. -/
structure Response where
  status : Nat
  body : Str
  deriving DecidableEq

/-- Models Go http.Error: the given message plus a newline, with the given
status code. -/
def httpError (msg : Str) (code : Nat) : Response :=
  { status := code, body := msg ++ ['\n'] }

/-- The reply of the Redis EXISTS call used by the blocklist middleware:
either a count, or an error (timeout, connection refused, malformed
reply). -/
inductive RedisReply
  | ok (n : Nat)
  | error
  deriving DecidableEq

/-- The signing algorithm declared in a JWT header.  Only the first three
are implementations of SigningMethodRSA in the jwt library. -/
inductive SigningAlg
  | RS256
  | RS384
  | RS512
  | PS256
  | HS256
  | ES256
  | algNone
  deriving DecidableEq

/-- Whether the jwt library type assertion to SigningMethodRSA succeeds for
a method: true exactly for the RS256 family. -/
def isRSAMethod : SigningAlg → Bool
  | .RS256 => true
  | .RS384 => true
  | .RS512 => true
  | _ => false

/-- What the jwt library would see in a syntactically well-formed token:
its declared algorithm, whether its signature verifies under the configured
key material, whether its registered claims (expiry etc.) validate, and its
optional sub claim. -/
structure TokenData where
  alg : SigningAlg
  sigOK : Bool
  claimsOK : Bool
  subClaim : Option Str
  deriving DecidableEq

/-- Models jwt.Parse with the key function of the JWT middleware: an
unparseable token errors; a token whose method is not SigningMethodRSA makes
the key function return ErrSignatureInvalid, so parsing errors; then the
RSA signature and the registered claims are checked.  The token environment
is the oracle tokens, mapping a token string to its parsed form (none for a
malformed token). -/
def jwtParseRSA (tokens : Str → Option TokenData) (tok : Str) :
    Option TokenData :=
  match tokens tok with
  | none => none
  | some t =>
    if !isRSAMethod t.alg then none
    else if !t.sigOK then none
    else if !t.claimsOK then none
    else some t

/-- The accept/reject decision of the JWT middleware for a non-health
request, with the http.Error message on rejection: missing header, bad
Bearer form, or a token that fails jwt.Parse / validity. -/
def jwtValidate (tokens : Str → Option TokenData) (r : Request) :
    Except Str TokenData :=
  if r.authHeader = [] then .error (str "Unauthorized - Missing token")
  else
    match goSplitN2 ' ' r.authHeader with
    | [p0, p1] =>
      if goToLower p0 ≠ str "bearer" then
        .error (str "Unauthorized - Invalid token format")
      else
        match jwtParseRSA tokens p1 with
        | none => .error (str "Unauthorized - Invalid token")
        | some t => .ok t
    | _ => .error (str "Unauthorized - Invalid token format")

/-- The process-wide flow tracker: bindings from client key to flow state. -/
abbrev FlowTracker := List (Str × FlowStats)

/-- Models sync.Map Load on the tracker. -/
def lookupFlow (m : FlowTracker) (k : Str) : Option FlowStats :=
  (m.find? (fun kv => kv.1 = k)).map (fun kv => kv.2)

/-- Stores back the mutated per-key state. -/
def setFlow (m : FlowTracker) (k : Str) (s : FlowStats) : FlowTracker :=
  m.map (fun kv => if kv.1 = k then (k, s) else kv)

/-- Models FlowTracker.getOrCreateFlow: Load, else LoadOrStore of a fresh
state stamped with the current time. -/
def getOrCreateFlow (now : Int) (m : FlowTracker) (k : Str) :
    FlowStats × FlowTracker :=
  match lookupFlow m k with
  | some s => (s, m)
  | none => (newFlow now, m ++ [(k, newFlow now)])

/-- FlowTracker.TrackRequest at the map level. -/
def trackerTrackRequest (now : Int) (m : FlowTracker) (k : Str)
    (reqSize : Int) : FlowTracker × TrafficFeatures :=
  let sm := getOrCreateFlow now m k
  let sf := trackRequest now reqSize sm.1
  (setFlow sm.2 k sf.1, sf.2)

/-- FlowTracker.UpdateResponseStats at the map level. -/
def trackerUpdateResponseStats (msqrt : ℚ → ℚ) (now : Int) (m : FlowTracker)
    (k : Str) (respSize : Int) (f : TrafficFeatures) :
    FlowTracker × TrafficFeatures :=
  let sm := getOrCreateFlow now m k
  let sf := updateResponseStats msqrt respSize sm.1 f
  (setFlow sm.2 k sf.1, sf.2)

/-- A middleware handler: a request and the tracker state go in, a response
and the tracker state come out. -/
abbrev Handler := Request → FlowTracker → Response × FlowTracker

/-- Models BlocklistMiddleware.Handler: look up blocklist:ip:(client key) in
the store; on a store error fail open and run the next handler; on a
positive count short-circuit with 403; else run the next handler. -/
def blocklistHandler (store : Str → RedisReply) (next : Handler) : Handler :=
  fun r m =>
    let clientIP := extractClientIP r
    let key := str "blocklist:ip:" ++ clientIP
    match store key with
    | .error => next r m
    | .ok ex =>
      if ex > 0 then (httpError (str "Forbidden - IP Blocked") 403, m)
      else next r m

/-- Models JWTMiddleware.Handler: the health path is passed through
unconditionally; otherwise the request passes iff jwtValidate accepts, and
is rejected with 401 and the corresponding message otherwise. -/
def jwtHandler (tokens : Str → Option TokenData) (next : Handler) : Handler :=
  fun r m =>
    if r.path = str "/health" then next r m
    else
      match jwtValidate tokens r with
      | .error msg => (httpError msg 401, m)
      | .ok _ => next r m

/-- Models LoggerMiddleware.Handler on the request path: derive the client
key, estimate the request size (non-negative content length plus 500 bytes
of header overhead), record the forward observation, run the inner handler,
then record the backward observation with the captured response byte count.
The asynchronous Kafka ship does not touch the request/response or tracker
state and is not modelled. -/
def loggerHandler (msqrt : ℚ → ℚ) (now : Int) (next : Handler) : Handler :=
  fun r m =>
    let clientIP := extractClientIPLogger r
    let reqSize := (if r.contentLength < 0 then 0 else r.contentLength) + 500
    let mf := trackerTrackRequest now m clientIP reqSize
    let rm := next r mf.1
    let mf2 := trackerUpdateResponseStats msqrt now rm.2 clientIP
      (rm.1.body.length : Int) mf.2
    (rm.1, mf2.1)

/-- Models certFingerprint of the proxy handler: the reference emits the
placeholder string fingerprint for every certificate. -/
def certFingerprint (cert : Cert) : Str := str "fingerprint"

/-- Models the customized Director of the reverse proxy: rewrite the host to
the origin host, set X-Forwarded-By, and when a peer certificate is present
set X-Client-Cert-CN and X-Client-Cert-Fingerprint from it. -/
def director (targetHost : Str) (r : Request) : Request :=
  let r := { r with host := targetHost, xForwardedBy := str "aegis-zero" }
  match r.tlsPeerCerts with
  | [] => r
  | cert :: _ =>
    { r with xClientCertCN := cert.subjectCN,
             xClientCertFingerprint := certFingerprint cert }

/-- Models ProxyHandler.ServeHTTP: forward the director-rewritten request to
the upstream oracle; none models a forwarding error, answered with the fixed
502 body. -/
def proxyHandler (targetHost : Str) (upstream : Request → Option Response) :
    Handler :=
  fun r m =>
    match upstream (director targetHost r) with
    | none => (httpError (str "Bad Gateway") 502, m)
    | some resp => (resp, m)

/-- The composed middleware chain of main.go:
blocklist, then JWT, then logger, then the forwarder. -/
def finalHandler (msqrt : ℚ → ℚ) (now : Int) (store : Str → RedisReply)
    (tokens : Str → Option TokenData) (targetHost : Str)
    (upstream : Request → Option Response) : Handler :=
  blocklistHandler store
    (jwtHandler tokens
      (loggerHandler msqrt now
        (proxyHandler targetHost upstream)))

/-- Models healthCheckHandler of main.go: status 200 with the literal JSON
body it writes. -/
def healthCheckHandler : Response :=
  { status := 200,
    body := str "\x7b\"status\": \"healthy\", \"service\": \"aegis-zero-proxy\"\x7d" }

/-- Models the ServeMux of main.go: the exact path /health goes to the
health handler and bypasses every middleware; every other path goes to the
composed chain. -/
def muxHandler (msqrt : ℚ → ℚ) (now : Int) (store : Str → RedisReply)
    (tokens : Str → Option TokenData) (targetHost : Str)
    (upstream : Request → Option Response) : Handler :=
  fun r m =>
    if r.path = str "/health" then (healthCheckHandler, m)
    else finalHandler msqrt now store tokens targetHost upstream r m


/-- The last 100 entries of a window (all of it when it is shorter). -/
def last100 (l : List ℚ) : List ℚ := l.drop (l.length - 100)

/-- Concrete store fixture: exactly the key blocklist:ip:10.0.0.7 exists. -/
def storeBlocked : Str → RedisReply :=
  fun k => if k = str "blocklist:ip:10.0.0.7" then .ok 1 else .ok 0

/-- Concrete store fixture: every lookup fails (store down). -/
def storeDown : Str → RedisReply := fun _ => .error

/-- Concrete store fixture: no key exists. -/
def storeEmpty : Str → RedisReply := fun _ => .ok 0

/-- Concrete token fixture: no token string parses. -/
def noTokens : Str → Option TokenData := fun _ => none

/-- Concrete token fixture: the string tok1 parses as an HS256 token whose
signature verifies (the algorithm-confusion shape) and whose claims are
valid. -/
def hsTokens : Str → Option TokenData :=
  fun t =>
    if t = str "tok1" then some { alg := .HS256, sigOK := true, claimsOK := true, subClaim := none }
    else none

/-- Concrete upstream fixture: always answers 200 ok. -/
def upstreamOK : Request → Option Response :=
  fun _ => some { status := 200, body := str "ok" }

/-- Concrete inner-handler fixture: always answers 200 ok, leaving the
tracker alone. -/
def okHandler : Handler := fun _ m => ({ status := 200, body := str "ok" }, m)

/-- Concrete request fixture: the denylisted peer 10.0.0.7, no headers. -/
def reqBlocked : Request := { req0 with remoteAddr := str "10.0.0.7:9000" }

/-- Concrete request fixture: an API request bearing the HS256 token. -/
def reqHS : Request :=
  { req0 with path := str "/api", authHeader := str "Bearer tok1" }

/-- Concrete request fixture: the health route. -/
def reqHealth : Request := { req0 with path := str "/health" }

/-- Two distinct concrete client certificates. -/
def certA : Cert := { subjectCN := str "test-client", der := [1, 2, 3] }

/-- A second certificate, differing from certA in subject and encoding. -/
def certB : Cert := { subjectCN := str "attacker-client", der := [4, 5, 6] }

/-- The sliding-window trim of tracker.go: when a window holds more than
100 samples, drop the oldest. -/
def trimW (l : List ℚ) : List ℚ := if 100 < l.length then l.tail else l

/-- The inductive invariant of a single flow state, preserved by both
tracker operations from a fresh state. -/
structure FlowInv (s : FlowStats) : Prop where
  fwdLen100 : s.fwdPacketLengths.length ≤ 100
  bwdLen100 : s.bwdPacketLengths.length ≤ 100
  iatLen100 : s.fwdIATs.length ≤ 100
  fwdTot : (s.fwdPacketLengths.length : Int) ≤ s.totalFwdPkts
  bwdTotNonneg : 0 ≤ s.totalBwdPkts
  iatTot : 1 ≤ s.totalFwdPkts → (s.fwdIATs.length : Int) ≤ s.totalFwdPkts - 1
  iatNilOfZero : s.totalFwdPkts = 0 → s.fwdIATs = []
  lastTot : s.lastRequestTime ≠ none → 1 ≤ s.totalFwdPkts
  iatPos : ∀ x ∈ s.fwdIATs, 0 < x

/-- The peer-address shapes on which the two client-key derivations are
claimed to agree: no colon and no bracket at all; a plain host:port whose
pieces are colon-free and bracket-free; or a bracketed IPv6 host followed
by a colon-free bracket-free port. -/
def AgreeingRemoteAddr (ra : Str) : Prop :=
  (':' ∉ ra ∧ '[' ∉ ra ∧ ']' ∉ ra) ∨
    (∃ h p, ra = h ++ ':' :: p ∧ ':' ∉ h ∧ '[' ∉ h ∧ ']' ∉ h ∧
      ':' ∉ p ∧ '[' ∉ p ∧ ']' ∉ p) ∨
    (∃ h p, ra = '[' :: h ++ ']' :: ':' :: p ∧ '[' ∉ h ∧ ']' ∉ h ∧
      ':' ∉ p ∧ '[' ∉ p ∧ ']' ∉ p)

/-!  Theorems.  The development below settles the frozen claims; helper
lemmas come first, one theorem per claim follows. -/


theorem flowInv_newFlow (t : Int) : FlowInv (newFlow t) := by
  constructor <;> simp [newFlow]

theorem trackRequest_fwd (now reqSize : Int) (s : FlowStats) :
    (trackRequest now reqSize s).1.fwdPacketLengths =
      trimW (s.fwdPacketLengths ++ [(reqSize : ℚ)]) := rfl

theorem trackRequest_iats (now reqSize : Int) (s : FlowStats) :
    (trackRequest now reqSize s).1.fwdIATs =
      trimW (if 0 < iatOf s now then s.fwdIATs ++ [iatOf s now] else s.fwdIATs) := rfl

theorem trackRequest_totFwd (now reqSize : Int) (s : FlowStats) :
    (trackRequest now reqSize s).1.totalFwdPkts = s.totalFwdPkts + 1 := rfl

theorem trackRequest_bwd (now reqSize : Int) (s : FlowStats) :
    (trackRequest now reqSize s).1.bwdPacketLengths = s.bwdPacketLengths := rfl

theorem trackRequest_totBwd (now reqSize : Int) (s : FlowStats) :
    (trackRequest now reqSize s).1.totalBwdPkts = s.totalBwdPkts := rfl

theorem trackRequest_last (now reqSize : Int) (s : FlowStats) :
    (trackRequest now reqSize s).1.lastRequestTime = some now := rfl

theorem updateResponseStats_bwd (msqrt : ℚ → ℚ) (respSize : Int) (s : FlowStats)
    (f : TrafficFeatures) :
    (updateResponseStats msqrt respSize s f).1.bwdPacketLengths =
      trimW (s.bwdPacketLengths ++ [(respSize : ℚ)]) := rfl

theorem updateResponseStats_totBwd (msqrt : ℚ → ℚ) (respSize : Int) (s : FlowStats)
    (f : TrafficFeatures) :
    (updateResponseStats msqrt respSize s f).1.totalBwdPkts = s.totalBwdPkts + 1 := rfl

theorem updateResponseStats_fwd (msqrt : ℚ → ℚ) (respSize : Int) (s : FlowStats)
    (f : TrafficFeatures) :
    (updateResponseStats msqrt respSize s f).1.fwdPacketLengths = s.fwdPacketLengths := rfl

theorem updateResponseStats_iats (msqrt : ℚ → ℚ) (respSize : Int) (s : FlowStats)
    (f : TrafficFeatures) :
    (updateResponseStats msqrt respSize s f).1.fwdIATs = s.fwdIATs := rfl

theorem updateResponseStats_totFwd (msqrt : ℚ → ℚ) (respSize : Int) (s : FlowStats)
    (f : TrafficFeatures) :
    (updateResponseStats msqrt respSize s f).1.totalFwdPkts = s.totalFwdPkts := rfl

theorem updateResponseStats_last (msqrt : ℚ → ℚ) (respSize : Int) (s : FlowStats)
    (f : TrafficFeatures) :
    (updateResponseStats msqrt respSize s f).1.lastRequestTime = s.lastRequestTime := rfl

theorem trimW_length_le (l : List ℚ) (h : l.length ≤ 101) : (trimW l).length ≤ 100 := by
  unfold trimW
  by_cases h1 : 100 < l.length
  · simp only [h1, if_true, List.length_tail]
    omega
  · simp only [h1, if_false]
    omega

theorem trimW_length_le_self (l : List ℚ) : (trimW l).length ≤ l.length := by
  unfold trimW
  by_cases h1 : 100 < l.length
  · simp only [h1, if_true, List.length_tail]
    omega
  · simp [h1]

theorem trimW_subset (l : List ℚ) : trimW l ⊆ l := by
  unfold trimW
  by_cases h1 : 100 < l.length
  · simp only [h1, if_true]
    exact List.tail_subset l
  · simp [h1]

theorem trimW_eq_last100 (l : List ℚ) (h : l.length ≤ 101) : trimW l = last100 l := by
  unfold trimW last100
  by_cases h1 : 100 < l.length
  · have h2 : l.length - 100 = 1 := by omega
    simp [h1, h2, List.drop_one]
  · have h2 : l.length - 100 = 0 := by omega
    simp [h1, h2]

theorem flowInv_track (now reqSize : Int) (s : FlowStats) (hs : FlowInv s) :
    FlowInv ((trackRequest now reqSize s).1) := by
  constructor
  case fwdLen100 =>
    rw [trackRequest_fwd]
    apply trimW_length_le
    have := hs.fwdLen100
    simp only [List.length_append, List.length_singleton]
    omega
  case bwdLen100 =>
    rw [trackRequest_bwd]
    exact hs.bwdLen100
  case iatLen100 =>
    rw [trackRequest_iats]
    apply trimW_length_le
    have := hs.iatLen100
    by_cases hi : 0 < iatOf s now <;> simp [hi] <;> omega
  case fwdTot =>
    rw [trackRequest_fwd, trackRequest_totFwd]
    have h1 := trimW_length_le_self (s.fwdPacketLengths ++ [(reqSize : ℚ)])
    have h2 := hs.fwdTot
    simp only [List.length_append, List.length_singleton] at h1
    omega
  case bwdTotNonneg =>
    rw [trackRequest_totBwd]
    exact hs.bwdTotNonneg
  case iatTot =>
    intro _
    rw [trackRequest_iats, trackRequest_totFwd]
    by_cases hi : 0 < iatOf s now
    · have hlast : s.lastRequestTime ≠ none := by
        intro hnone
        rw [iatOf, hnone] at hi
        exact absurd hi (by norm_num)
      have h1 := hs.lastTot hlast
      have h2 := hs.iatTot h1
      have h3 := trimW_length_le_self (s.fwdIATs ++ [iatOf s now])
      simp only [List.length_append, List.length_singleton] at h3
      simp only [hi, if_true]
      omega
    · have h3 := trimW_length_le_self s.fwdIATs
      simp only [hi, if_false]
      by_cases h0 : s.totalFwdPkts = 0
      · have hnil := hs.iatNilOfZero h0
        rw [hnil] at h3
        simp only [List.length_nil, Nat.le_zero] at h3
        rw [hnil]
        simp only [trimW, List.length_nil]
        norm_num
        omega
      · have hpos : 1 ≤ s.totalFwdPkts := by
          have := hs.fwdTot
          omega
        have h2 := hs.iatTot hpos
        omega
  case iatNilOfZero =>
    rw [trackRequest_totFwd]
    intro h0
    have := hs.fwdTot
    omega
  case lastTot =>
    rw [trackRequest_totFwd]
    intro _
    have := hs.fwdTot
    omega
  case iatPos =>
    rw [trackRequest_iats]
    intro x hx
    have hx2 := trimW_subset _ hx
    by_cases hi : 0 < iatOf s now
    · simp only [hi, if_true, List.mem_append, List.mem_singleton] at hx2
      rcases hx2 with h | h
      · exact hs.iatPos x h
      · rw [h]
        exact hi
    · simp only [hi, if_false] at hx2
      exact hs.iatPos x hx2

theorem flowInv_respond (msqrt : ℚ → ℚ) (respSize : Int) (s : FlowStats)
    (f : TrafficFeatures) (hs : FlowInv s) :
    FlowInv ((updateResponseStats msqrt respSize s f).1) := by
  constructor
  case fwdLen100 =>
    rw [updateResponseStats_fwd]
    exact hs.fwdLen100
  case bwdLen100 =>
    rw [updateResponseStats_bwd]
    apply trimW_length_le
    have := hs.bwdLen100
    simp only [List.length_append, List.length_singleton]
    omega
  case iatLen100 =>
    rw [updateResponseStats_iats]
    exact hs.iatLen100
  case fwdTot =>
    rw [updateResponseStats_fwd, updateResponseStats_totFwd]
    exact hs.fwdTot
  case bwdTotNonneg =>
    rw [updateResponseStats_totBwd]
    have := hs.bwdTotNonneg
    omega
  case iatTot =>
    rw [updateResponseStats_iats, updateResponseStats_totFwd]
    exact hs.iatTot
  case iatNilOfZero =>
    rw [updateResponseStats_iats, updateResponseStats_totFwd]
    exact hs.iatNilOfZero
  case lastTot =>
    rw [updateResponseStats_last, updateResponseStats_totFwd]
    exact hs.lastTot
  case iatPos =>
    rw [updateResponseStats_iats]
    exact hs.iatPos

theorem flowInv_applyOps (msqrt : ℚ → ℚ) (s : FlowStats) (ops : List FlowOp)
    (hs : FlowInv s) : FlowInv (applyOps msqrt s ops) := by
  induction ops generalizing s with
  | nil => exact hs
  | cons op rest ih =>
    rw [applyOps, List.foldl_cons]
    apply ih
    cases op with
    | track now reqSize => exact flowInv_track now reqSize s hs
    | respond respSize => exact flowInv_respond msqrt respSize s zeroFeatures hs

theorem updateResponseStats_avg (msqrt : ℚ → ℚ) (respSize : Int) (s : FlowStats)
    (f : TrafficFeatures) :
    (updateResponseStats msqrt respSize s f).2.avgPacketSize =
      if 0 < s.totalFwdPkts + (s.totalBwdPkts + 1) then
        (calculateSum s.fwdPacketLengths +
          calculateSum (trimW (s.bwdPacketLengths ++ [(respSize : ℚ)]))) /
          ((s.totalFwdPkts + (s.totalBwdPkts + 1) : Int) : ℚ)
      else f.avgPacketSize := by
  unfold updateResponseStats
  by_cases hc : 0 < s.totalFwdPkts + (s.totalBwdPkts + 1)
  · have hc2 : (0:ℚ) < (s.totalFwdPkts : ℚ) + ((s.totalBwdPkts : ℚ) + 1) := by
      exact_mod_cast hc
    simp [trimW, hc, hc2]
  · have hc2 : ¬ (0:ℚ) < (s.totalFwdPkts : ℚ) + ((s.totalBwdPkts : ℚ) + 1) := by
      intro h
      exact hc (by exact_mod_cast h)
    simp [trimW, hc, hc2]

/-- C2: along every sequence of TrackRequest and UpdateResponseStats calls
on one key, each of the three bounded windows keeps at most 100 entries,
and each append resolves to the last 100 entries of the appended window
(the oldest entry is the one dropped). -/
theorem bounded_windows :
    (∀ (msqrt : ℚ → ℚ) (t0 : Int) (ops : List FlowOp),
        (applyOps msqrt (newFlow t0) ops).fwdPacketLengths.length ≤ 100 ∧
        (applyOps msqrt (newFlow t0) ops).bwdPacketLengths.length ≤ 100 ∧
        (applyOps msqrt (newFlow t0) ops).fwdIATs.length ≤ 100) ∧
    (∀ (msqrt : ℚ → ℚ) (t0 now reqSize : Int) (ops : List FlowOp),
        (trackRequest now reqSize (applyOps msqrt (newFlow t0) ops)).1.fwdPacketLengths =
          last100 ((applyOps msqrt (newFlow t0) ops).fwdPacketLengths ++ [(reqSize : ℚ)])) ∧
    (∀ (msqrt : ℚ → ℚ) (t0 now reqSize : Int) (ops : List FlowOp),
        (trackRequest now reqSize (applyOps msqrt (newFlow t0) ops)).1.fwdIATs =
          last100
            (if 0 < iatOf (applyOps msqrt (newFlow t0) ops) now then
              (applyOps msqrt (newFlow t0) ops).fwdIATs ++
                [iatOf (applyOps msqrt (newFlow t0) ops) now]
            else (applyOps msqrt (newFlow t0) ops).fwdIATs)) ∧
    (∀ (msqrt : ℚ → ℚ) (t0 respSize : Int) (ops : List FlowOp) (f : TrafficFeatures),
        (updateResponseStats msqrt respSize (applyOps msqrt (newFlow t0) ops)
            f).1.bwdPacketLengths =
          last100 ((applyOps msqrt (newFlow t0) ops).bwdPacketLengths ++ [(respSize : ℚ)])) := by
  refine ⟨?b1, ?b2, ?b3, ?b4⟩
  case b1 =>
    intro msqrt t0 ops
    have inv := flowInv_applyOps msqrt (newFlow t0) ops (flowInv_newFlow t0)
    exact ⟨inv.fwdLen100, inv.bwdLen100, inv.iatLen100⟩
  case b2 =>
    intro msqrt t0 now reqSize ops
    have inv := flowInv_applyOps msqrt (newFlow t0) ops (flowInv_newFlow t0)
    rw [trackRequest_fwd]
    apply trimW_eq_last100
    have := inv.fwdLen100
    simp only [List.length_append, List.length_singleton]
    omega
  case b3 =>
    intro msqrt t0 now reqSize ops
    have inv := flowInv_applyOps msqrt (newFlow t0) ops (flowInv_newFlow t0)
    rw [trackRequest_iats]
    apply trimW_eq_last100
    have := inv.iatLen100
    by_cases hi : 0 < iatOf (applyOps msqrt (newFlow t0) ops) now <;> simp [hi] <;> omega
  case b4 =>
    intro msqrt t0 respSize ops f
    have inv := flowInv_applyOps msqrt (newFlow t0) ops (flowInv_newFlow t0)
    rw [updateResponseStats_bwd]
    apply trimW_eq_last100
    have := inv.bwdLen100
    simp only [List.length_append, List.length_singleton]
    omega

/-- C4: after any UpdateResponseStats call on a reachable state, the packet
total is positive (so the zero-divisor guard never bites) and the
AvgPacketSize written into the features equals the sum of the two current
bounded windows divided by the sum of the two all-time counters. -/
theorem avg_packet_size_correct (msqrt : ℚ → ℚ) (t0 respSize : Int)
    (ops : List FlowOp) (f : TrafficFeatures) :
    (0:ℚ) <
      (((updateResponseStats msqrt respSize (applyOps msqrt (newFlow t0) ops)
            f).1.totalFwdPkts +
        (updateResponseStats msqrt respSize (applyOps msqrt (newFlow t0) ops)
            f).1.totalBwdPkts : Int) : ℚ) ∧
    (updateResponseStats msqrt respSize (applyOps msqrt (newFlow t0) ops)
        f).2.avgPacketSize =
      (calculateSum
          (updateResponseStats msqrt respSize (applyOps msqrt (newFlow t0) ops)
            f).1.fwdPacketLengths +
        calculateSum
          (updateResponseStats msqrt respSize (applyOps msqrt (newFlow t0) ops)
            f).1.bwdPacketLengths) /
      (((updateResponseStats msqrt respSize (applyOps msqrt (newFlow t0) ops)
            f).1.totalFwdPkts +
        (updateResponseStats msqrt respSize (applyOps msqrt (newFlow t0) ops)
            f).1.totalBwdPkts : Int) : ℚ) := by
  have inv := flowInv_applyOps msqrt (newFlow t0) ops (flowInv_newFlow t0)
  have h1 : 0 ≤ (applyOps msqrt (newFlow t0) ops).totalFwdPkts := by
    have := inv.fwdTot
    omega
  have h2 : 0 ≤ (applyOps msqrt (newFlow t0) ops).totalBwdPkts := inv.bwdTotNonneg
  have hpos :
      (0:ℚ) <
        (((applyOps msqrt (newFlow t0) ops).totalFwdPkts +
            ((applyOps msqrt (newFlow t0) ops).totalBwdPkts + 1) : Int) : ℚ) := by
    have h3 :
        (0:Int) <
          (applyOps msqrt (newFlow t0) ops).totalFwdPkts +
            ((applyOps msqrt (newFlow t0) ops).totalBwdPkts + 1) := by omega
    exact_mod_cast h3
  constructor
  · rw [updateResponseStats_totFwd, updateResponseStats_totBwd]
    exact hpos
  · rw [updateResponseStats_fwd, updateResponseStats_bwd, updateResponseStats_totFwd,
        updateResponseStats_totBwd, updateResponseStats_avg]
    rw [if_pos (show 0 < (applyOps msqrt (newFlow t0) ops).totalFwdPkts +
      ((applyOps msqrt (newFlow t0) ops).totalBwdPkts + 1) by omega)]

/-- C7 as frozen is too strong: a first call that is UpdateResponseStats
creates the state with TotalFwdPkts = 0 and an empty FwdIATs window, and
0 ≤ 0 − 1 fails over the integers. -/
theorem iat_count_bound_fails_on_backward_creation :
    (applyOps id (newFlow 0) [.respond 5]).totalFwdPkts - 1 <
      ((applyOps id (newFlow 0) [.respond 5]).fwdIATs.length : Int) := by
  decide

/-- C7 amended: along every call sequence on one key, TotalFwdPkts
dominates the forward window length; the IAT bound |FwdIATs| ≤
TotalFwdPkts − 1 holds whenever TotalFwdPkts ≥ 1, and FwdIATs is empty
while TotalFwdPkts = 0. -/
theorem counters_dominate_windows (msqrt : ℚ → ℚ) (t0 : Int) (ops : List FlowOp) :
    ((applyOps msqrt (newFlow t0) ops).fwdPacketLengths.length : Int) ≤
        (applyOps msqrt (newFlow t0) ops).totalFwdPkts ∧
      (1 ≤ (applyOps msqrt (newFlow t0) ops).totalFwdPkts →
        ((applyOps msqrt (newFlow t0) ops).fwdIATs.length : Int) ≤
          (applyOps msqrt (newFlow t0) ops).totalFwdPkts - 1) ∧
      ((applyOps msqrt (newFlow t0) ops).totalFwdPkts = 0 →
        (applyOps msqrt (newFlow t0) ops).fwdIATs = []) :=
  ⟨(flowInv_applyOps msqrt (newFlow t0) ops (flowInv_newFlow t0)).fwdTot,
    (flowInv_applyOps msqrt (newFlow t0) ops (flowInv_newFlow t0)).iatTot,
    (flowInv_applyOps msqrt (newFlow t0) ops (flowInv_newFlow t0)).iatNilOfZero⟩

theorem counters_dominate_windows_witness :
    (1 ≤ (applyOps id (newFlow 0) [.track 0 7, .track 1000 7]).totalFwdPkts) ∧
      ((applyOps id (newFlow 0) [.track 0 7, .track 1000 7]).fwdIATs.length : Int) ≤
        (applyOps id (newFlow 0) [.track 0 7, .track 1000 7]).totalFwdPkts - 1 :=
  ⟨by decide, (counters_dominate_windows id 0 [.track 0 7, .track 1000 7]).2.1 (by decide)⟩

/-- C10: every entry of the FwdIATs window of a reachable flow state is
strictly positive: an IAT is only appended when it is greater than zero. -/
theorem iats_strictly_positive (msqrt : ℚ → ℚ) (t0 : Int) (ops : List FlowOp) :
    ∀ x ∈ (applyOps msqrt (newFlow t0) ops).fwdIATs, 0 < x :=
  (flowInv_applyOps msqrt (newFlow t0) ops (flowInv_newFlow t0)).iatPos

theorem iats_strictly_positive_witness :
    ((1000:ℚ) ∈ (applyOps id (newFlow 0) [.track 0 600, .track 1000 600]).fwdIATs) ∧
      (0:ℚ) < 1000 :=
  ⟨by decide,
    iats_strictly_positive id 0 [.track 0 600, .track 1000 600] 1000 (by decide)⟩

theorem goSplitN2_bearer (tok : Str) :
    goSplitN2 ' ' (str "Bearer " ++ tok) = [str "Bearer", tok] := by
  have h : str "Bearer " = 'B' :: 'e' :: 'a' :: 'r' :: 'e' :: 'r' :: ' ' :: [] := rfl
  rw [h]
  simp [goSplitN2, firstIdx]
  decide

theorem jwtValidate_nonrsa (tokens : Str → Option TokenData) (r : Request)
    (tok : Str) (td : TokenData)
    (hauth : r.authHeader = str "Bearer " ++ tok)
    (htok : tokens tok = some td)
    (halg : isRSAMethod td.alg = false) :
    jwtValidate tokens r = .error (str "Unauthorized - Invalid token") := by
  unfold jwtValidate
  rw [hauth]
  rw [if_neg (by simp [str]), goSplitN2_bearer]
  show (if goToLower (str "Bearer") ≠ str "bearer" then
          Except.error (str "Unauthorized - Invalid token format")
        else
          match jwtParseRSA tokens tok with
          | none => Except.error (str "Unauthorized - Invalid token")
          | some t => Except.ok t) =
      Except.error (str "Unauthorized - Invalid token")
  rw [if_neg (by decide)]
  unfold jwtParseRSA
  rw [htok]
  simp [halg]

/-- C1: a request whose client key is on the denylist and whose
Authorization header is missing or invalid is answered 403 by the composed
chain, never 401: the blocklist middleware short-circuits (tracker state
untouched) before the token validator can run. -/
theorem denylisted_ip_rejected_403 (msqrt : ℚ → ℚ) (now : Int)
    (store : Str → RedisReply) (tokens : Str → Option TokenData)
    (targetHost : Str) (upstream : Request → Option Response) (r : Request)
    (m : FlowTracker) (n : Nat)
    (hblocked : store (str "blocklist:ip:" ++ extractClientIP r) = .ok n)
    (hn : 0 < n)
    (hbad : ∃ msg, jwtValidate tokens r = .error msg) :
    finalHandler msqrt now store tokens targetHost upstream r m =
      (httpError (str "Forbidden - IP Blocked") 403, m) := by
  simp only [finalHandler, blocklistHandler]
  rw [hblocked]
  simp [hn]

theorem denylisted_ip_rejected_403_witness :
    (storeBlocked (str "blocklist:ip:" ++ extractClientIP reqBlocked) = .ok 1 ∧
      0 < 1 ∧
      jwtValidate noTokens reqBlocked = .error (str "Unauthorized - Missing token")) ∧
    finalHandler id 0 storeBlocked noTokens (str "origin") upstreamOK reqBlocked [] =
      (httpError (str "Forbidden - IP Blocked") 403, []) :=
  ⟨⟨by decide, by decide, by rfl⟩,
    denylisted_ip_rejected_403 id 0 storeBlocked noTokens (str "origin") upstreamOK
      reqBlocked [] 1 (by decide) (by decide)
      ⟨str "Unauthorized - Missing token", by rfl⟩⟩

/-- C3: on any store error the blocklist middleware fails open, behaving
exactly as the next handler in the chain: in particular it does not answer
403 itself. -/
theorem store_error_fails_open (store : Str → RedisReply) (next : Handler)
    (r : Request) (m : FlowTracker)
    (herr : store (str "blocklist:ip:" ++ extractClientIP r) = .error) :
    blocklistHandler store next r m = next r m := by
  simp only [blocklistHandler]
  rw [herr]

theorem store_error_fails_open_witness :
    storeDown (str "blocklist:ip:" ++ extractClientIP req0) = .error ∧
      blocklistHandler storeDown okHandler req0 [] = okHandler req0 [] :=
  ⟨by decide, store_error_fails_open storeDown okHandler req0 [] (by decide)⟩

/-- C6: a bearer token whose header declares a non-RSA algorithm is
rejected 401 on any non-health route, whatever its signature or claims say
and whatever the next handler would do: the key function refuses the
method, so jwt.Parse errors. -/
theorem non_rsa_token_rejected (tokens : Str → Option TokenData)
    (next : Handler) (r : Request) (m : FlowTracker) (tok : Str)
    (td : TokenData)
    (hpath : r.path ≠ str "/health")
    (hauth : r.authHeader = str "Bearer " ++ tok)
    (htok : tokens tok = some td)
    (halg : isRSAMethod td.alg = false) :
    jwtHandler tokens next r m =
      (httpError (str "Unauthorized - Invalid token") 401, m) := by
  unfold jwtHandler
  rw [if_neg hpath, jwtValidate_nonrsa tokens r tok td hauth htok halg]

theorem non_rsa_token_rejected_witness :
    (reqHS.path ≠ str "/health" ∧
      reqHS.authHeader = str "Bearer " ++ str "tok1" ∧
      hsTokens (str "tok1") =
        some { alg := .HS256, sigOK := true, claimsOK := true, subClaim := none } ∧
      isRSAMethod SigningAlg.HS256 = false) ∧
    jwtHandler hsTokens okHandler reqHS [] =
      (httpError (str "Unauthorized - Invalid token") 401, []) :=
  ⟨⟨by decide, by decide, by decide, by decide⟩,
    non_rsa_token_rejected hsTokens okHandler reqHS [] (str "tok1")
      { alg := .HS256, sigOK := true, claimsOK := true, subClaim := none }
      (by decide) (by decide) (by decide) (by decide)⟩

/-- C9 as frozen pins the health body to a JSON text without spaces; the
code writes the same object with a space after each colon and comma, so the
bodies differ as byte strings. -/
theorem health_body_differs_from_claimed :
    (muxHandler id 0 storeEmpty noTokens (str "origin") upstreamOK reqHealth []).1.body ≠
      str "\x7b\"status\":\"healthy\",\"service\":\"aegis-zero-proxy\"\x7d" := by
  decide

/-- C9 amended: every request to the exact /health path is answered 200
with the literal body the code writes (the same JSON object, with a space
after each colon and comma), with the tracker state untouched and no
middleware involved. -/
theorem health_bypasses_all_middleware (msqrt : ℚ → ℚ) (now : Int)
    (store : Str → RedisReply) (tokens : Str → Option TokenData)
    (targetHost : Str) (upstream : Request → Option Response) (r : Request)
    (m : FlowTracker) (hpath : r.path = str "/health") :
    muxHandler msqrt now store tokens targetHost upstream r m =
      ({ status := 200,
         body := str "\x7b\"status\": \"healthy\", \"service\": \"aegis-zero-proxy\"\x7d" },
        m) := by
  unfold muxHandler
  rw [if_pos hpath]
  rfl

theorem health_bypasses_all_middleware_witness :
    reqHealth.path = str "/health" ∧
      muxHandler id 0 storeEmpty noTokens (str "origin") upstreamOK reqHealth [] =
        ({ status := 200,
           body := str "\x7b\"status\": \"healthy\", \"service\": \"aegis-zero-proxy\"\x7d" },
          []) :=
  ⟨by decide,
    health_bypasses_all_middleware id 0 storeEmpty noTokens (str "origin") upstreamOK
      reqHealth [] (by decide)⟩

/-- C8: the forwarder does set X-Client-Cert-CN to the subject common name,
but X-Client-Cert-Fingerprint is the constant placeholder string for every
certificate — not the SHA-256 hex digest of the DER encoding — so two
distinct certificates receive the same fingerprint. -/
theorem cert_fingerprint_is_placeholder :
    (∀ c : Cert, certFingerprint c = str "fingerprint") ∧
      (director (str "origin") { req0 with tlsPeerCerts := [certA] }).xClientCertCN =
        str "test-client" ∧
      (director (str "origin") { req0 with tlsPeerCerts := [certA] }).xClientCertFingerprint =
        str "fingerprint" ∧
      (director (str "origin") { req0 with tlsPeerCerts := [certB] }).xClientCertFingerprint =
        str "fingerprint" ∧
      certA ≠ certB :=
  ⟨fun _ => rfl, by decide, by decide, by decide, by decide⟩

theorem lastIdxColon_eq_none (s : Str) (h : ':' ∉ s) : lastIdxColon s = none := by
  induction s with
  | nil => rfl
  | cons x xs ih =>
    simp only [List.mem_cons, not_or] at h
    simp only [lastIdxColon, ih h.2]
    rw [if_neg (fun hx => h.1 hx.symm)]

theorem lastIdxColon_append (h p : Str) (hp : ':' ∉ p) :
    lastIdxColon (h ++ ':' :: p) = some h.length := by
  induction h with
  | nil =>
    simp only [List.nil_append, lastIdxColon, lastIdxColon_eq_none p hp]
    rfl
  | cons x xs ih =>
    simp only [List.cons_append, lastIdxColon, List.append_eq, ih]
    rfl

theorem firstIdx_eq_none (c : Char) (s : Str) (h : c ∉ s) : firstIdx c s = none := by
  induction s with
  | nil => rfl
  | cons x xs ih =>
    simp only [List.mem_cons, not_or] at h
    simp only [firstIdx, ih h.2]
    rw [if_neg (fun hx => h.1 hx.symm)]
    rfl

theorem firstIdx_append (c : Char) (pre rest : Str) (h : c ∉ pre) :
    firstIdx c (pre ++ c :: rest) = some pre.length := by
  induction pre with
  | nil => simp [firstIdx]
  | cons x xs ih =>
    simp only [List.mem_cons, not_or] at h
    simp only [List.cons_append, firstIdx, List.append_eq, ih h.2]
    rw [if_neg (fun hx => h.1 hx.symm)]
    rfl

theorem trimPrefixChar_eq_self (c : Char) (s : Str) (h : c ∉ s) :
    trimPrefixChar c s = s := by
  cases s with
  | nil => rfl
  | cons x xs =>
    simp only [List.mem_cons, not_or] at h
    simp only [trimPrefixChar]
    rw [if_neg (fun hx => h.1 hx.symm)]

theorem trimPrefixChar_cons (c : Char) (l : Str) : trimPrefixChar c (c :: l) = l := by
  simp [trimPrefixChar]

theorem trimSuffixChar_eq_self (c : Char) (s : Str) (h : c ∉ s) :
    trimSuffixChar c s = s := by
  unfold trimSuffixChar
  cases hg : s.getLast? with
  | none => rfl
  | some x =>
    have hx : x ∈ s :=
      List.mem_of_mem_getLast? (by rw [hg]; exact Option.mem_def.mpr rfl)
    show (if x = c then s.dropLast else s) = s
    rw [if_neg (fun hxc => h (by rw [← hxc]; exact hx))]

theorem trimSuffixChar_concat (c : Char) (l : Str) :
    trimSuffixChar c (l ++ [c]) = l := by
  unfold trimSuffixChar
  rw [List.getLast?_concat]
  simp [List.dropLast_concat]

theorem splitHostPort_nocolon (ra : Str) (h1 : ':' ∉ ra) : splitHostPort ra = none := by
  unfold splitHostPort
  rw [lastIdxColon_eq_none ra h1]

theorem splitHostPort_plain (h p : Str) (hh1 : ':' ∉ h) (hh2 : '[' ∉ h) (hh3 : ']' ∉ h)
    (hp1 : ':' ∉ p) (hp2 : '[' ∉ p) (hp3 : ']' ∉ p) :
    splitHostPort (h ++ ':' :: p) = some (h, p) := by
  cases h with
  | nil =>
    have hl0 : lastIdxColon (':' :: p) = some 0 := by
      simpa using lastIdxColon_append [] p hp1
    have hlb : firstIdx '[' (':' :: p) = none := by
      apply firstIdx_eq_none
      intro hmem
      simp only [List.mem_cons] at hmem
      rcases hmem with hq | hq
      · exact absurd hq (by decide)
      · exact hp2 hq
    have hrb : firstIdx ']' (':' :: p) = none := by
      apply firstIdx_eq_none
      intro hmem
      simp only [List.mem_cons] at hmem
      rcases hmem with hq | hq
      · exact absurd hq (by decide)
      · exact hp3 hq
    simp only [List.nil_append, splitHostPort, hl0, hlb, hrb]
    simp [eq_false (show (':' : Char) ≠ '[' by decide), firstIdx]
  | cons a h2 =>
    have ha : a ≠ '[' := fun heq => hh2 (by rw [heq]; exact List.mem_cons_self '[' h2)
    have hl2 : lastIdxColon (a :: (h2 ++ ':' :: p)) = some (h2.length + 1) := by
      simpa using lastIdxColon_append (a :: h2) p hp1
    have ht : (a :: (h2 ++ ':' :: p)).take (h2.length + 1) = a :: h2 := by
      rw [← List.cons_append]
      exact List.take_left' (by simp)
    have hcolon : firstIdx ':' ((a :: (h2 ++ ':' :: p)).take (h2.length + 1)) = none := by
      rw [ht]
      exact firstIdx_eq_none ':' (a :: h2) hh1
    have hlb : firstIdx '[' (a :: (h2 ++ ':' :: p)) = none := by
      apply firstIdx_eq_none
      intro hmem
      simp only [List.mem_cons, List.mem_append] at hmem
      rcases hmem with hq | hq | hq | hq
      · exact hh2 (List.mem_cons.mpr (Or.inl hq))
      · exact hh2 (List.mem_cons.mpr (Or.inr hq))
      · exact absurd hq (by decide)
      · exact hp2 hq
    have hrb : firstIdx ']' (a :: (h2 ++ ':' :: p)) = none := by
      apply firstIdx_eq_none
      intro hmem
      simp only [List.mem_cons, List.mem_append] at hmem
      rcases hmem with hq | hq | hq | hq
      · exact hh3 (List.mem_cons.mpr (Or.inl hq))
      · exact hh3 (List.mem_cons.mpr (Or.inr hq))
      · exact absurd hq (by decide)
      · exact hp3 hq
    have hdrop : (a :: (h2 ++ ':' :: p)).drop (h2.length + 1 + 1) = p := by
      rw [← List.cons_append]
      have : (a :: h2) ++ ':' :: p = ((a :: h2) ++ [':']) ++ p := by simp
      rw [this]
      exact List.drop_left' (by simp)
    simp only [List.cons_append, splitHostPort, hl2, hcolon, hlb, hrb]
    simp [eq_false ha, ht, hdrop]

theorem splitHostPort_bracket (h p : Str) (hh2 : '[' ∉ h) (hh3 : ']' ∉ h)
    (hp1 : ':' ∉ p) (hp2 : '[' ∉ p) (hp3 : ']' ∉ p) :
    splitHostPort ('[' :: h ++ ']' :: ':' :: p) = some (h, p) := by
  have hl : lastIdxColon ('[' :: h ++ ']' :: ':' :: p) = some (h.length + 2) := by
    simpa using lastIdxColon_append ('[' :: h ++ [']']) p hp1
  have he : firstIdx ']' ('[' :: h ++ ']' :: ':' :: p) = some (h.length + 1) := by
    have hfi : firstIdx ']' (h ++ ']' :: ':' :: p) = some h.length :=
      firstIdx_append ']' h (':' :: p) hh3
    show firstIdx ']' ('[' :: (h ++ ']' :: ':' :: p)) = some (h.length + 1)
    simp only [firstIdx]
    rw [if_neg (by decide), hfi]
    rfl
  have hlb : firstIdx '[' (('[' :: h ++ ']' :: ':' :: p).drop 1) = none := by
    show firstIdx '[' (h ++ ']' :: ':' :: p) = none
    apply firstIdx_eq_none
    intro hmem
    simp only [List.mem_append, List.mem_cons] at hmem
    rcases hmem with hq | hq | hq | hq
    · exact hh2 hq
    · exact absurd hq (by decide)
    · exact absurd hq (by decide)
    · exact hp2 hq
  have hd2 : ('[' :: h ++ ']' :: ':' :: p).drop (h.length + 1 + 1) = ':' :: p := by
    have hq : '[' :: h ++ ']' :: ':' :: p = ('[' :: h ++ [']']) ++ ':' :: p := by simp
    rw [hq]
    exact List.drop_left' (by simp)
  have hrb : firstIdx ']' (('[' :: h ++ ']' :: ':' :: p).drop (h.length + 1 + 1)) = none := by
    rw [hd2]
    apply firstIdx_eq_none
    intro hmem
    simp only [List.mem_cons] at hmem
    rcases hmem with hq | hq
    · exact absurd hq (by decide)
    · exact hp3 hq
  have hhost : (('[' :: h ++ ']' :: ':' :: p).drop 1).take (h.length + 1 - 1) = h := by
    show (h ++ ']' :: ':' :: p).take h.length = h
    exact List.take_left h _
  have hport : ('[' :: h ++ ']' :: ':' :: p).drop (h.length + 2 + 1) = p := by
    have hq : '[' :: h ++ ']' :: ':' :: p = ('[' :: h ++ [']'] ++ [':']) ++ p := by simp
    rw [hq]
    exact List.drop_left' (by simp)
  have hne : ¬ (h.length + 1 + 1 = ('[' :: h ++ ']' :: ':' :: p).length) := by
    simp only [List.length_cons, List.length_append]
    omega
  simp only [splitHostPort, hl, he, hlb, hrb]
  simp [eq_false hne, hhost, hport]

theorem extract_fallback_agree (ra : Str) (ha : AgreeingRemoteAddr ra) :
    trimSuffixChar ']' (trimPrefixChar '['
        (match lastIdxColon ra with
          | some i => ra.take i
          | none => ra)) =
      (match splitHostPort ra with
        | none => ra
        | some hp => hp.1) := by
  rcases ha with ⟨h1, h2, h3⟩ | ⟨h, p, hra, hh1, hh2, hh3, hp1, hp2, hp3⟩ |
    ⟨h, p, hra, hh2, hh3, hp1, hp2, hp3⟩
  · rw [lastIdxColon_eq_none ra h1, splitHostPort_nocolon ra h1]
    show trimSuffixChar ']' (trimPrefixChar '[' ra) = ra
    rw [trimPrefixChar_eq_self _ _ h2, trimSuffixChar_eq_self _ _ h3]
  · subst hra
    rw [lastIdxColon_append h p hp1, splitHostPort_plain h p hh1 hh2 hh3 hp1 hp2 hp3]
    show trimSuffixChar ']' (trimPrefixChar '[' ((h ++ ':' :: p).take h.length)) = h
    rw [List.take_left, trimPrefixChar_eq_self _ _ hh2, trimSuffixChar_eq_self _ _ hh3]
  · subst hra
    have hl : lastIdxColon ('[' :: h ++ ']' :: ':' :: p) = some (h.length + 2) := by
      simpa using lastIdxColon_append ('[' :: h ++ [']']) p hp1
    rw [hl, splitHostPort_bracket h p hh2 hh3 hp1 hp2 hp3]
    show trimSuffixChar ']'
        (trimPrefixChar '[' (('[' :: h ++ ']' :: ':' :: p).take (h.length + 2))) = h
    have ht : ('[' :: h ++ ']' :: ':' :: p).take (h.length + 2) = '[' :: (h ++ [']']) := by
      have hq : '[' :: h ++ ']' :: ':' :: p = ('[' :: (h ++ [']'])) ++ ':' :: p := by simp
      rw [hq]
      exact List.take_left' (by simp)
    rw [ht, trimPrefixChar_cons, trimSuffixChar_concat]

/-- C5 as frozen fails: the two derivations disagree on some peer-address
values — here a bare IPv6 loopback with no port, where the blocklist
derivation cuts at the last colon and yields a colon while the logger
derivation keeps the whole address on the SplitHostPort error. -/
theorem client_key_derivations_disagree :
    extractClientIP { req0 with remoteAddr := str "::1" } ≠
      extractClientIPLogger { req0 with remoteAddr := str "::1" } := by
  decide

/-- C5 amended: the two client-key derivations agree whenever a forwarding
header is present, or the peer address is bracket-free and colon-free, a
plain host:port, or a bracketed IPv6 host:port; they can differ on other
peer addresses. -/
theorem client_key_agreement (r : Request)
    (hyp : r.xff ≠ [] ∨ r.xri ≠ [] ∨ AgreeingRemoteAddr r.remoteAddr) :
    extractClientIP r = extractClientIPLogger r := by
  unfold extractClientIP extractClientIPLogger
  by_cases hx : r.xff = []
  case neg => simp [hx]
  case pos =>
    by_cases hr : r.xri = []
    case neg => simp [hx, hr]
    case pos =>
      rcases hyp with h | h | h
      · exact absurd hx h
      · exact absurd hr h
      · simp only [hx, hr, ne_eq, not_true_eq_false, if_false]
        exact extract_fallback_agree r.remoteAddr h

theorem client_key_agreement_witness :
    (reqBlocked.xff ≠ [] ∨ reqBlocked.xri ≠ [] ∨
      AgreeingRemoteAddr reqBlocked.remoteAddr) ∧
      extractClientIP reqBlocked = extractClientIPLogger reqBlocked :=
  ⟨Or.inr (Or.inr (Or.inr (Or.inl
      ⟨str "10.0.0.7", str "9000", by decide, by decide, by decide, by decide,
        by decide, by decide, by decide⟩))),
    client_key_agreement reqBlocked
      (Or.inr (Or.inr (Or.inr (Or.inl
        ⟨str "10.0.0.7", str "9000", by decide, by decide, by decide, by decide,
          by decide, by decide, by decide⟩))))⟩
